import Mathlib

/-!
Shallow embedding of the transformation-phase dispatch and multi-project
build-invalidation engine of `tsc-transform-kit`, together with theorems
settling the specification claims against it.

The embedding follows the TypeScript sources:
* `src/lib/transformers.ts` / `src/unnamed/part_000` — `Transformers.forInvalidatedProject`;
* `src/unnamed/part_002` / `part_003` — `Transformer`, `TransformerContext`, `TransformerPhase`;
* `src/unnamed/part_001` / `part_004` — the visit dispatcher (`Transformer.#visit` / `visit`)
  and the stage-tagged abstract `Transformer` (`stages`);
* `src/unnamed/part_005` — `TypeScriptSolution.consumeBuilder`, `Watch`,
  `isSupportedSourceFile`, `isOutputFile`;
* `src/unnamed/part_006` — `TypeScriptProject.consumeBuilder`.
-/

namespace TscTransformKit

/- ================================================================
   Transformation phases and the transformer registry
   (src/lib/transformers.ts, src/unnamed/part_000..part_004)
   ================================================================ -/

/-- The `TransformerPhase` (part_002/part_003) / `TransformerStage` (part_001/part_004):
the three fixed points in the host compile pipeline: `before`, `after`,
`afterDeclarations`. -/
inductive TransformerPhase : Type where
  | before
  | after
  | afterDeclarations
deriving DecidableEq, Repr

/-- A registered transformation pass. `id` stands for the pass's implementing
object identity; `stages` is the list of phases the pass declares itself
applicable to (the abstract `Transformer.stages` member of part_001/part_004 —
the `Transformer` of part_002/part_003 used by `Transformers` declares no such
member, which is what claim C1 is about). -/
structure TransformerPass : Type where
  id : Nat
  stages : List TransformerPhase
deriving DecidableEq, Repr

/-- A materialized custom-transformer factory: the closure produced by
`customTransformerFactory(tx, phase)` captures the pass and the phase it was
materialized for, so we represent it as that pair. -/
abbrev TransformerFactory : Type := TransformerPass × TransformerPhase

/-- The `ts.CustomTransformers`: the three phase-bucketed factory lists the host
compiler's emit API expects. -/
structure CustomTransformers : Type where
  before : List TransformerFactory
  after : List TransformerFactory
  afterDeclarations : List TransformerFactory
deriving DecidableEq, Repr

/-- The `Transformers.addTransformer` pushes at the end of the registry (insertion
order significant). -/
def addTransformer (registry : List TransformerPass) (tx : TransformerPass) :
    List TransformerPass :=
  registry ++ [tx]

/-- The `Transformers.forInvalidatedProject` (src/lib/transformers.ts:20-41,
part_000:21-42): each of the three buckets is
`this.transformers.map((tx) => customTransformerFactory(tx, <phase>))` —
a plain `map` over the whole registry, with no filtering of any kind. -/
def forInvalidatedProject (registry : List TransformerPass) : CustomTransformers :=
  { before := registry.map fun tx => (tx, TransformerPhase.before)
    after := registry.map fun tx => (tx, TransformerPhase.after)
    afterDeclarations := registry.map fun tx => (tx, TransformerPhase.afterDeclarations) }

/-- Selects the factory list of a given phase out of a `ts.CustomTransformers`
value. -/
def CustomTransformers.bucket (c : CustomTransformers) :
    TransformerPhase → List TransformerFactory
  | TransformerPhase.before => c.before
  | TransformerPhase.after => c.after
  | TransformerPhase.afterDeclarations => c.afterDeclarations

/-- A pass declaring only the `before` phase (used to settle C1). -/
def beforeOnlyPass : TransformerPass := { id := 0, stages := [TransformerPhase.before] }

/- ================================================================
   Exit-status classification
   (TypeScriptSolution.consumeBuilder, part_005:386-425;
    TypeScriptProject.consumeBuilder, part_006:125-149)
   ================================================================ -/

/-- Numeric value of the host's `ts.ExitStatus.Success`. -/
def ExitStatusSuccess : Nat := 0
/-- The `ts.ExitStatus.DiagnosticsPresent_OutputsSkipped = 1`. -/
def ExitStatusDiagnosticsPresentOutputsSkipped : Nat := 1
/-- The `ts.ExitStatus.DiagnosticsPresent_OutputsGenerated = 2`. -/
def ExitStatusDiagnosticsPresentOutputsGenerated : Nat := 2
/-- The `ts.ExitStatus.InvalidProject_OutputsSkipped = 3`. -/
def ExitStatusInvalidProjectOutputsSkipped : Nat := 3
/-- The `ts.ExitStatus.ProjectReferenceCycle_OutputsSkipped = 4`. -/
def ExitStatusProjectReferenceCycleOutputsSkipped : Nat := 4
/-- The `ts.ExitStatus.ProjectReferenceCycle_OutputsSkupped = 4` — the host enum's
near-duplicate (typo) alias, sharing the numeric value `4`. -/
def ExitStatusProjectReferenceCycleOutputsSkupped : Nat := 4

/-- The `OutputsSkippedReason` (part_005 / part_006). -/
inductive OutputsSkippedReason : Type where
  | diagnosticsPresent
  | invalidProject
  | projectReferenceCycle
deriving DecidableEq, Repr

/-- The outcome event the orchestrator emits for one completed unit. -/
inductive BuildOutcome : Type where
  | outputsGenerated
  | outputsSkipped (reason : OutputsSkippedReason)
deriving DecidableEq, Repr

/-- The JavaScript reverse enum mapping `ts.ExitStatus[exitStatus]` used when
building the throw message. For the duplicated value `4` the later enum member
(`..._OutputsSkupped`) wins the reverse mapping; for a value outside the enum
the lookup yields `undefined`. -/
def exitStatusName (s : Nat) : String :=
  if s = 0 then "Success"
  else if s = 1 then "DiagnosticsPresent_OutputsSkipped"
  else if s = 2 then "DiagnosticsPresent_OutputsGenerated"
  else if s = 3 then "InvalidProject_OutputsSkipped"
  else if s = 4 then "ProjectReferenceCycle_OutputsSkupped"
  else "undefined"

/-- The `switch (exitStatus)` of `consumeBuilder` (part_005:386-425,
part_006:125-149): `Success` and `DiagnosticsPresent_OutputsGenerated` emit
`OutputsGenerated`; the three skip statuses emit `OutputsSkipped` with their
reason (both project-reference-cycle aliases share the value `4` and thus the
same `case`); the `default` branch throws
`` `Unsupported exitStatus: ${ts.ExitStatus[exitStatus]}` ``. -/
def classifyExitStatus (s : Nat) : Except String BuildOutcome :=
  if s = ExitStatusSuccess then
    Except.ok BuildOutcome.outputsGenerated
  else if s = ExitStatusDiagnosticsPresentOutputsGenerated then
    Except.ok BuildOutcome.outputsGenerated
  else if s = ExitStatusDiagnosticsPresentOutputsSkipped then
    Except.ok (BuildOutcome.outputsSkipped OutputsSkippedReason.diagnosticsPresent)
  else if s = ExitStatusInvalidProjectOutputsSkipped then
    Except.ok (BuildOutcome.outputsSkipped OutputsSkippedReason.invalidProject)
  else if s = ExitStatusProjectReferenceCycleOutputsSkipped
      ∨ s = ExitStatusProjectReferenceCycleOutputsSkupped then
    Except.ok (BuildOutcome.outputsSkipped OutputsSkippedReason.projectReferenceCycle)
  else
    Except.error ("Unsupported exitStatus: " ++ exitStatusName s)

/- ================================================================
   TransformerContext.program (part_002:126-131, part_003:124-129)
   ================================================================ -/

/-- The `ts.InvalidatedProjectKind`: `Build = 0`, `UpdateBundle`,
`UpdateOutputFileStamps`. -/
inductive InvalidatedProjectKind : Type where
  | build
  | updateBundle
  | updateOutputFileStamps
deriving DecidableEq, Repr

/-- The slice of a `ts.InvalidatedProject` visible to `TransformerContext`:
its kind, what its `getProgram()` accessor would produce (programs are
modelled opaquely by a `Nat` identity), and its configuration path
(`.project`). -/
structure InvalidatedProject : Type where
  kind : InvalidatedProjectKind
  resolvedProgram : Option Nat
  project : String
deriving DecidableEq, Repr

/-- The `TransformerContext.program` getter (part_002:126-131, part_003:124-129):

```ts
public get program(): ts.Program | undefined {
  if (this.invalidatedProject.kind === ts.InvalidatedProjectKind.Build) {
    this.invalidatedProject.getProgram();
  }
  return undefined;
}
```

The `getProgram()` call's result is discarded (there is no `return` in front of
it), and the getter then falls through to `return undefined` on every path. -/
def contextProgram (ip : InvalidatedProject) : Option Nat :=
  let _ :=
    if ip.kind = InvalidatedProjectKind.build then ip.resolvedProgram else none
  none

/-- A Build-kind invalidated project whose `getProgram()` has a resolved
program available (used to settle C4). -/
def buildKindProject : InvalidatedProject :=
  { kind := InvalidatedProjectKind.build, resolvedProgram := some 42, project := "tsconfig.json" }

/- ================================================================
   The tree-visitor dispatcher (Transformer.#visit, part_001:43-70;
   Transformer.visit, part_004:37-54)
   ================================================================ -/

/-- A dynamically-shaped JavaScript value as it flows through the dispatcher:
`undefined`, a syntax-tree node (a kind tag plus its list of children), or an
array of values. -/
inductive JS : Type where
  | undef : JS
  | node : Nat → List JS → JS
  | arr : List JS → JS
deriving Repr

/-- The `Array.isArray`. -/
def JS.isArr : JS → Bool
  | JS.arr _ => true
  | _ => false

/-- The `v != null` (for the dispatcher's `.filter(result => result != null)`). -/
def JS.isUndef : JS → Bool
  | JS.undef => true
  | _ => false

/-- How `ts.visitNodes` (inside `ts.visitEachChild`) incorporates one visitor
result into a child list: `undefined` is dropped, an array is spliced in place
(its elements added as-is), and a single node is kept. -/
def JS.splice : JS → List JS
  | JS.undef => []
  | JS.arr xs => xs
  | v => [v]

/-- The `ts.visitEachChild(node, cb, context)`: rewrites the children of a node by
running the callback on each child and splicing the results; `undefined`
propagates, and a value without children (the host returns unrecognized kinds
unchanged from its default switch case) passes through. -/
def visitEachChild (cb : JS → JS) : JS → JS
  | JS.node l cs => JS.node l (cs.flatMap fun c => (cb c).splice)
  | v => v

/-- The `Transformer.#visit` (part_001:43-70) / `Transformer.visit` (part_004:37-54):

```ts
let result = this.visitNode(node, env);
if (result === undefined) { return undefined; }
if (!Array.isArray(result)) { result = [result]; }
result = result
  .map(newNode => ts.visitEachChild(newNode, toVisit => this.#visit(..., toVisit, ...), context))
  .filter(result => result != null)
  .map(result => Array.isArray(result) ? result : [result])
  .reduce((acc, newNode) => [...acc, newNode], []);
return result.length === 1 ? result[0] : result;
```

The recursion through `visitEachChild` is not structurally decreasing (the
pass's `visitNode` may return arbitrary nodes), so the embedding carries a
fuel parameter; all theorems use enough fuel for the trees involved. -/
def visitDispatch (visit : JS → JS) : Nat → JS → JS
  | 0, _ => JS.undef
  | fuel + 1, nodeV =>
    match visit nodeV with
    | JS.undef => JS.undef
    | result =>
      let rs : List JS :=
        match result with
        | JS.arr xs => xs
        | other => [other]
      let mapped := rs.map (visitEachChild (visitDispatch visit fuel))
      let filtered := mapped.filter fun r => !r.isUndef
      let wrapped := filtered.map fun r => if r.isArr then r else JS.arr [r]
      let reduced := wrapped.foldl (fun acc newNode => acc ++ [newNode]) []
      match reduced with
      | [x] => x
      | xs => JS.arr xs

/-- The `ts.visitNode(node, visitor)` as invoked by `Transformer.transform`: an
`undefined` visitor result propagates; an array result goes through
`extractSingleNode`, which asserts at most one element and yields the single
element (or `undefined` when empty; the multi-element case trips the host's
assertion and is never exercised by the theorems below). -/
def visitNodeTop (cb : JS → JS) (n : JS) : JS :=
  match cb n with
  | JS.undef => JS.undef
  | JS.arr [x] => x
  | JS.arr _ => JS.undef
  | v => v

/-- The `Transformer.transform` (part_001:24-31, part_004:23-25):
`ts.visitNode(node, node => this.#visit(program, context, node, reporter))`. -/
def transformDispatch (visit : JS → JS) (fuel : Nat) (root : JS) : JS :=
  visitNodeTop (visitDispatch visit fuel) root

/-- The `FuelSufficient fuel j` holds when `j` is a well-formed syntax tree (node
constructors throughout) whose depth is at most `fuel`; it is the induction
skeleton for running the dispatcher to completion on `j`. -/
inductive FuelSufficient : Nat → JS → Prop where
  | node : ∀ (fuel : Nat) (l : Nat) (cs : List JS),
      (∀ c ∈ cs, FuelSufficient fuel c) → FuelSufficient (fuel + 1) (JS.node l cs)

/-- A pass that splices two fresh leaves in place of the kind-0 node and leaves
every other node unchanged (used to settle C3). -/
def spliceTwoVisit : JS → JS
  | JS.node 0 _ => JS.arr [JS.node 1 [], JS.node 2 []]
  | v => v

/- ================================================================
   The watch manager (Watch, part_005:555-660) and its helpers
   (isSupportedSourceFile part_005:663-673, isOutputFile part_005:683-710)
   ================================================================ -/

/-- One entry of `config.wildcardDirectories`: the directory path and its
recursive flag (`flags & ts.WatchDirectoryFlags.Recursive`). -/
structure WildcardDirectory : Type where
  path : String
  recursive : Bool
deriving DecidableEq, Repr

/-- The compiler options consulted by the watch manager. `Option String`
fields model possibly-`undefined` string options; JavaScript string truthiness
(`""` is falsy) is applied where the source tests them with `&&`. -/
structure CompilerOptions : Type where
  allowJs : Bool
  resolveJsonModule : Bool
  noEmit : Bool
  outFile : Option String
  out : Option String
  outDir : Option String
  declarationDir : Option String
deriving DecidableEq, Repr

/-- The slice of `ts.ParsedCommandLine` the watch manager consumes. -/
structure ParsedCommandLine : Type where
  options : CompilerOptions
  fileNames : List String
  wildcardDirectories : List WildcardDirectory
deriving DecidableEq, Repr

/-- The mutable state of a `Watch` instance: the `#watchers` map (insertion
ordered, path-keyed, values are the `ts.FileWatcher` handles, identified here
by allocation number), the `#stopped` flag, the set of handles whose `close()`
has been invoked, and the next fresh handle number the host system would
allocate. -/
structure WatchState : Type where
  watchers : List (String × Nat)
  stopped : Bool
  closedHandles : List Nat
  nextHandle : Nat
deriving DecidableEq, Repr

/-- The `this.#watchers.has(path)`. -/
def WatchState.hasPath (s : WatchState) (path : String) : Bool :=
  s.watchers.any fun e => e.1 == path

/-- The `this.#watchers.set(path, this.#host.watchFile(...))` (or `watchDirectory`):
the host allocates a fresh watch handle and the map records it under `path`. -/
def WatchState.addWatcher (s : WatchState) (path : String) : WatchState :=
  { s with
    watchers := s.watchers ++ [(path, s.nextHandle)]
    nextHandle := s.nextHandle + 1 }

/-- The guarded registration idiom used three times in the source
(`if (!this.#watchers.has(path)) { this.#watchers.set(path, ...) }` in
`watchConfigFile`, and `if (this.#watchers.has(path)) { continue; }` before
`set` in `#watchWildCardDirectories` / `#watchInputFiles`). -/
def WatchState.ensurePath (s : WatchState) (path : String) : WatchState :=
  if s.hasPath path then s else s.addWatcher path

/-- Registers (at most once each, in order) a list of paths. -/
def ensurePaths (s : WatchState) (ps : List String) : WatchState :=
  ps.foldl WatchState.ensurePath s

/-- The `Watch.#watchWildCardDirectories` (part_005:611-634): for each entry of
`config.wildcardDirectories ?? {}`, skip if already watched, otherwise
register a directory watch (whose change callback is modelled by
`wildcardCallbackInvokesBuild` below). -/
def watchWildCardDirectories (cfg : ParsedCommandLine) (s : WatchState) : WatchState :=
  ensurePaths s (cfg.wildcardDirectories.map WildcardDirectory.path)

/-- The `Watch.#watchInputFiles` (part_005:637-650): for each `config.fileNames`
entry, skip if already watched, otherwise register a file watch. -/
def watchInputFiles (cfg : ParsedCommandLine) (s : WatchState) : WatchState :=
  ensurePaths s cfg.fileNames

/-- The `Watch.watchConfigFile` (part_005:584-600): `config` is the outcome of
`parseConfiguration(path, this.system)` (`undefined` on an unrecoverable parse
error). A watch on `path` itself is ensured unconditionally; when parsing
succeeded, wildcard directories and input files are additionally ensured. No
check of `#stopped` occurs anywhere in this method. -/
def watchConfigFile (path : String) (config : Option ParsedCommandLine)
    (s : WatchState) : WatchState :=
  let s1 := s.ensurePath path
  match config with
  | none => s1
  | some cfg => watchInputFiles cfg (watchWildCardDirectories cfg s1)

/-- The `Watch.stop` (part_005:602-608): sets `#stopped`, then closes and deletes
every watcher in the map. -/
def stopWatch (s : WatchState) : WatchState :=
  { watchers := []
    stopped := true
    closedHandles := s.closedHandles ++ s.watchers.map Prod.snd
    nextHandle := s.nextHandle }

/-- The `Watch.#performBuild` (part_005:578-581):
`() => { if (this.#stopped) { return; } callback(this); }` — returns whether
the rebuild callback actually runs. -/
def performBuildFires (s : WatchState) : Bool := !s.stopped

/-- The empty, freshly constructed watch state. -/
def initialWatch : WatchState :=
  { watchers := [], stopped := false, closedHandles := [], nextHandle := 0 }

/-- The slice of `ts.System` the `Watch` constructor checks:
`watchFile != null` and `watchDirectory != null`. -/
structure TSSystem : Type where
  watchFileSupported : Bool
  watchDirectorySupported : Bool
deriving DecidableEq, Repr

/-- The `Watch` constructor (part_005:562-582): throws when the system lacks
`watchDirectory` or `watchFile`, so no watch-manager instance ever exists over
such a system; otherwise the instance starts with an empty watcher map and
`#stopped = false`. -/
def createWatch (sys : TSSystem) : Except String WatchState :=
  if !sys.watchDirectorySupported || !sys.watchFileSupported then
    Except.error
      "Unable to create Watch: system does not support watchDirectory and/or watchFile"
  else
    Except.ok initialWatch

/-- Splits a character list on a separator character; the separator is
dropped, yielding `n + 1` segments for `n` separators (mirrors the behavior of
a path split on `/`). -/
def splitOnChar (sep : Char) : List Char → List (List Char)
  | [] => [[]]
  | c :: cs =>
    let rest := splitOnChar sep cs
    if c = sep then [] :: rest
    else
      match rest with
      | [] => [[c]]
      | r :: rs => (c :: r) :: rs

/-- JavaScript `String.prototype.startsWith`. -/
def strStartsWith (s pre : String) : Bool :=
  pre.toList.isPrefixOf s.toList

/-- JavaScript `String.prototype.endsWith`. -/
def strEndsWith (s suffix : String) : Bool :=
  suffix.toList.reverse.isPrefixOf s.toList.reverse

/-- Index of the last `.` character, if any. -/
def lastDotIdx (cs : List Char) : Option Nat :=
  let ri := cs.reverse.findIdx fun c => c == '.'
  if ri < cs.length then some (cs.length - 1 - ri) else none

/-- The model of `extname` from `node:path` (posix): the extension of the
basename, from its last `.` to the end; empty when the basename has no `.`,
when its only `.` is its leading character (dotfiles), or for the special
basename `..`. -/
def extname (p : String) : String :=
  let base := (splitOnChar '/' p.toList).getLastD p.toList
  if base = ['.', '.'] then ""
  else
    match lastDotIdx base with
    | none => ""
    | some 0 => ""
    | some i => String.mk (base.drop i)

/-- The `TS_SOURCE_EXTENSIONS` constant (part_005:652). -/
def TS_SOURCE_EXTENSIONS : List String := [".ts", ".tsx"]

/-- The `isSupportedSourceFile` helper (part_005:663-673): the
supported-extension set is `TS_SOURCE_EXTENSIONS`, plus `.js`/`.jsx` when
`allowJs`, plus `.json` when `resolveJsonModule`; the file qualifies when
`extname(path)` is in the set. -/
def isSupportedSourceFile (path : String) (cfg : ParsedCommandLine) : Bool :=
  let supportedExts := TS_SOURCE_EXTENSIONS
    ++ (if cfg.options.allowJs then [".js", ".jsx"] else [])
    ++ (if cfg.options.resolveJsonModule then [".json"] else [])
  supportedExts.contains (extname path)

/-- The model of `outFile.replace(/\.[^.]*$/i, '.d.ts')`: when the string
contains a `.`, the regex matches from its last `.` to the end and that suffix
is replaced by `.d.ts`; otherwise the string is unchanged. -/
def replaceExtWithDts (s : String) : String :=
  match lastDotIdx s.toList with
  | none => s
  | some i => String.mk (s.toList.take i) ++ ".d.ts"

/-- JavaScript truthiness of a possibly-`undefined` string (`""` is falsy). -/
def truthy : Option String → Bool
  | none => false
  | some s => s ≠ ""

/-- Joins path segments with `/`. -/
def joinSegs : List (List Char) → List Char
  | [] => []
  | [s] => s
  | s :: rest => s ++ '/' :: joinSegs rest

/-- The model of `node:path`'s `join(dir, "")` (posix): the empty segment is
dropped by `join`, so this is `normalize(dir)` — empty and `.` segments
removed, `..` resolved, one trailing slash preserved — with `"."` for the
empty path. -/
def joinEmpty (dir : String) : String :=
  if dir = "" then "."
  else
    let absolute := strStartsWith dir "/"
    let trailing := strEndsWith dir "/"
    let stack := (splitOnChar '/' dir.toList).foldl
      (fun st seg =>
        if seg = [] ∨ seg = ['.'] then st
        else if seg = ['.', '.'] then
          match st.getLast? with
          | some last => if last ≠ ['.', '.'] then st.dropLast else st ++ [seg]
          | none => if absolute then st else st ++ [seg]
        else st ++ [seg])
      ([] : List (List Char))
    let body := joinSegs stack
    let res := (if absolute then ['/'] else []) ++ body
    let res := if trailing ∧ body ≠ [] then res ++ ['/'] else res
    if res = [] then "." else String.mk res

/-- The `isOutputFile` helper (part_005:683-710): never an output when
`noEmit`; `.ts` (non-`.d.ts`) and `.tsx` files are never outputs; then the
file is an output when it matches `outFile ?? out` (or its `.d.ts`
companion), or lies under `declarationDir`, or lies under `outDir`. -/
def isOutputFile (path : String) (cfg : ParsedCommandLine) : Bool :=
  if cfg.options.noEmit then false
  else if !strEndsWith path ".d.ts"
      && (strEndsWith path ".ts" || strEndsWith path ".tsx") then
    false
  else
    let outFile : Option String :=
      match cfg.options.outFile with
      | some f => some f
      | none => cfg.options.out
    if truthy outFile
        && (outFile.getD "" == path || replaceExtWithDts (outFile.getD "") == path) then
      true
    else if truthy cfg.options.declarationDir
        && strStartsWith path (joinEmpty (cfg.options.declarationDir.getD "")) then
      true
    else if truthy cfg.options.outDir
        && strStartsWith path (joinEmpty (cfg.options.outDir.getD "")) then
      true
    else false

/-- The change callback installed by `#watchWildCardDirectories`
(part_005:617-629): a notification naming the watched directory itself always
reaches `#performBuild`; one naming a file reaches it only when the file is a
supported source file and not an output file. Returns whether `#performBuild`
is invoked. -/
def wildcardCallbackInvokesBuild (dirPath fileName : String)
    (cfg : ParsedCommandLine) : Bool :=
  if fileName ≠ dirPath then
    if !isSupportedSourceFile fileName cfg then false
    else if isOutputFile fileName cfg then false
    else true
  else true

/- ================================================================
   One iteration of the consumeBuilder loop (part_005:380-432,
   part_006:125-158)
   ================================================================ -/

/-- The outcome of `invalidatedProject.done(...)`: a host exit status, or a
synchronous throw (e.g. a pass's `visit` throwing during emit). -/
inductive DoneResult : Type where
  | status (s : Nat)
  | threw (msg : String)
deriving DecidableEq, Repr

/-- The lifecycle events emitted around one unit (the slice relevant to C8). -/
inductive BuildEventOcc : Type where
  | beforeProject (project : String)
  | outputsGenerated (project : String)
  | outputsSkipped (project : String) (reason : OutputsSkippedReason)
  | afterProject (project : String)
deriving DecidableEq, Repr

/-- The observable effects of one iteration of the `consumeBuilder` loop. -/
structure ProjectStepResult : Type where
  events : List BuildEventOcc
  watchRefreshes : List String
  thrown : Option String
deriving DecidableEq, Repr

/-- One iteration of the `consumeBuilder` loop body (part_005:380-432): emit
`BeforeProject`; run `done(...)` inside `try`; on a normal exit status run the
classification switch (whose `default` branch throws); the `finally` block
then — in watch mode — calls `watch.watchConfigFile(invalidatedProject.project)`
and emits `AfterProject`, on the normal and the throwing paths alike. -/
def projectStep (watchMode : Bool) (project : String) (d : DoneResult) :
    ProjectStepResult :=
  let refreshes := if watchMode then [project] else []
  let fin := [BuildEventOcc.afterProject project]
  match d with
  | DoneResult.threw m =>
      { events := [BuildEventOcc.beforeProject project] ++ fin
        watchRefreshes := refreshes
        thrown := some m }
  | DoneResult.status s =>
      match classifyExitStatus s with
      | Except.ok BuildOutcome.outputsGenerated =>
          { events := [BuildEventOcc.beforeProject project,
              BuildEventOcc.outputsGenerated project] ++ fin
            watchRefreshes := refreshes
            thrown := none }
      | Except.ok (BuildOutcome.outputsSkipped r) =>
          { events := [BuildEventOcc.beforeProject project,
              BuildEventOcc.outputsSkipped project r] ++ fin
            watchRefreshes := refreshes
            thrown := none }
      | Except.error m =>
          { events := [BuildEventOcc.beforeProject project] ++ fin
            watchRefreshes := refreshes
            thrown := some m }

end TscTransformKit

namespace TscTransformKit

/- ================================================================
   Theorems
   ================================================================ -/

/-- C1 counterexample: for the single-pass registry `[beforeOnlyPass]`, whose
only declared applicable phase is `before`, the claim says the `after` bucket
is the empty sub-sequence; but `forInvalidatedProject` places a factory for the
pass in the `after` bucket (no filtering by declared phases happens). -/
theorem C1_counterexample :
    CustomTransformers.bucket (forInvalidatedProject [beforeOnlyPass]) TransformerPhase.after
      ≠ (List.filter (fun tx => decide (TransformerPhase.after ∈ tx.stages)) [beforeOnlyPass]).map
          (fun tx => (tx, TransformerPhase.after)) := by
  decide

/-- C1 (amended): materializing the registry for a build unit places, for every
phase P, a factory for *every* registered pass into the phase-P bucket, in
original registration order, never reordered and never deduplicated; no
filtering by declared applicable phases occurs (a pass not applicable to P
still receives a factory entry for P). -/
theorem C1_buckets_are_whole_registry
    (registry : List TransformerPass) (P : TransformerPhase) :
    CustomTransformers.bucket (forInvalidatedProject registry) P
        = registry.map (fun tx => (tx, P))
      ∧ (CustomTransformers.bucket (forInvalidatedProject registry) P).map Prod.fst
        = registry := by
  cases P <;>
    simp [CustomTransformers.bucket, forInvalidatedProject, Function.comp_def]

/-- C2: the outcome classification of `consumeBuilder` is total and exactly as
claimed: `Success` and `DiagnosticsPresent_OutputsGenerated` yield
`OutputsGenerated`; `DiagnosticsPresent_OutputsSkipped` yields
`OutputsSkipped(DiagnosticsPresent)`; `InvalidProject_OutputsSkipped` yields
`OutputsSkipped(InvalidProject)`; both near-duplicate project-reference-cycle
statuses (the shared value 4) yield `OutputsSkipped(ProjectReferenceCycle)`;
and every other status value throws with an `Unsupported exitStatus` message. -/
theorem C2_classification_total :
    classifyExitStatus ExitStatusSuccess = Except.ok BuildOutcome.outputsGenerated
    ∧ classifyExitStatus ExitStatusDiagnosticsPresentOutputsGenerated
        = Except.ok BuildOutcome.outputsGenerated
    ∧ classifyExitStatus ExitStatusDiagnosticsPresentOutputsSkipped
        = Except.ok (BuildOutcome.outputsSkipped OutputsSkippedReason.diagnosticsPresent)
    ∧ classifyExitStatus ExitStatusInvalidProjectOutputsSkipped
        = Except.ok (BuildOutcome.outputsSkipped OutputsSkippedReason.invalidProject)
    ∧ classifyExitStatus ExitStatusProjectReferenceCycleOutputsSkipped
        = Except.ok (BuildOutcome.outputsSkipped OutputsSkippedReason.projectReferenceCycle)
    ∧ classifyExitStatus ExitStatusProjectReferenceCycleOutputsSkupped
        = Except.ok (BuildOutcome.outputsSkipped OutputsSkippedReason.projectReferenceCycle)
    ∧ ∀ s : Nat, s ≠ 0 → s ≠ 1 → s ≠ 2 → s ≠ 3 → s ≠ 4 →
        classifyExitStatus s = Except.error ("Unsupported exitStatus: " ++ exitStatusName s) := by
  refine ⟨rfl, rfl, rfl, rfl, rfl, rfl, ?_⟩
  intro s h0 h1 h2 h3 h4
  simp [classifyExitStatus, ExitStatusSuccess,
    ExitStatusDiagnosticsPresentOutputsGenerated,
    ExitStatusDiagnosticsPresentOutputsSkipped,
    ExitStatusInvalidProjectOutputsSkipped,
    ExitStatusProjectReferenceCycleOutputsSkipped,
    ExitStatusProjectReferenceCycleOutputsSkupped, h0, h1, h2, h3, h4]

/-- Witness for C2: instantiates the quantified unsupported-status clause at
the concrete status `7`. -/
theorem C2_classification_total_witness :
    classifyExitStatus 7 = Except.error ("Unsupported exitStatus: " ++ exitStatusName 7) :=
  C2_classification_total.2.2.2.2.2.2 7
    (by decide) (by decide) (by decide) (by decide) (by decide)

/-- C4 (code bug): the `program` getter evaluates `getProgram()` for a
Build-kind invalidated project but discards the result (the `return` keyword is
missing) and falls through to `return undefined`, so it yields `undefined`
even when the project is of Build kind and a resolved program exists —
contradicting the getter's own doc comment ("This is only available if the
invalidated project that triggered the transformation is of Build kind"). -/
theorem C4_program_getter_always_undefined :
    contextProgram buildKindProject = none
      ∧ buildKindProject.kind = InvalidatedProjectKind.build
      ∧ buildKindProject.resolvedProgram ≠ none
      ∧ ∀ ip : InvalidatedProject, contextProgram ip = none :=
  ⟨rfl, rfl, by decide, fun _ => rfl⟩

/-- Helper: a child list on which the recursive dispatcher acts by returning
each child wrapped as a one-element array is reassembled unchanged by the
splice step of `visitEachChild`. -/
theorem flatMap_splice_of_singleton (f : JS → JS) :
    ∀ cs : List JS, (∀ c ∈ cs, f c = JS.arr [c]) →
      (cs.flatMap fun c => (f c).splice) = cs := by
  intro cs h
  induction cs with
  | nil => rfl
  | cons a as ih =>
    have ha := h a (by simp)
    have has : ∀ c ∈ as, f c = JS.arr [c] := fun c hc => h c (by simp [hc])
    rw [List.flatMap_cons, ih has]
    show (f a).splice ++ as = a :: as
    rw [ha]
    rfl

/-- Helper: on a well-formed tree of depth at most `fuel`, the dispatcher with
an identity pass returns the input node wrapped in a one-element array (the
missing-spread pipeline always wraps, see C3), with all children rebuilt
unchanged. -/
theorem visitDispatch_identity (visit : JS → JS) (hid : ∀ v, visit v = v) :
    ∀ (fuel : Nat) (j : JS), FuelSufficient fuel j →
      visitDispatch visit fuel j = JS.arr [j] := by
  intro fuel j h
  induction h with
  | node fuel l cs _ ih =>
    have hsplice := flatMap_splice_of_singleton (visitDispatch visit fuel) cs ih
    simp only [visitDispatch, hid (JS.node l cs), visitEachChild, hsplice,
      JS.isUndef, JS.isArr, List.map, List.filter, List.foldl]
    rfl

/-- C9: for every pass whose `visit` returns each node unchanged (an identity
pass), the dispatcher's `transform` applied to any well-formed tree (with
sufficient fuel for its depth) returns the input tree itself — so a build with
only identity passes rewrites every tree to an identical tree, matching the
output of a build with no transforms at all. -/
theorem C9_identity_pass_roundtrip (visit : JS → JS) (fuel : Nat) (j : JS)
    (hid : ∀ v, visit v = v) (hfuel : FuelSufficient fuel j) :
    transformDispatch visit fuel j = j := by
  have h := visitDispatch_identity visit hid fuel j hfuel
  simp [transformDispatch, visitNodeTop, h]

/-- Witness for C9: the identity pass round-trips the two-node tree
`node 0 [node 1 []]` with fuel 2. -/
theorem C9_identity_pass_roundtrip_witness :
    transformDispatch (fun v => v) 2 (JS.node 0 [JS.node 1 []])
      = JS.node 0 [JS.node 1 []] :=
  C9_identity_pass_roundtrip (fun v => v) 2 (JS.node 0 [JS.node 1 []])
    (fun _ => rfl)
    (FuelSufficient.node 1 0 [JS.node 1 []] (by
      intro c hc
      have hc' : c = JS.node 1 [] := by simpa using hc
      subst hc'
      exact FuelSufficient.node 0 1 [] (by intro c hc; simp at hc)))

/-- Helper: registering a path reports any path as present iff it was present
before or equals the path just ensured. -/
theorem hasPath_addWatcher (s : WatchState) (p q : String) :
    (s.addWatcher p).hasPath q = (s.hasPath q || decide (p = q)) := by
  by_cases hpq : p = q <;>
    simp [WatchState.addWatcher, WatchState.hasPath, List.any_append, hpq]

/-- Helper: `ensurePath` only extends the present-path set by its argument. -/
theorem hasPath_ensurePath (s : WatchState) (p q : String) :
    (s.ensurePath p).hasPath q = (s.hasPath q || decide (p = q)) := by
  unfold WatchState.ensurePath
  by_cases h : s.hasPath p
  · by_cases hpq : p = q
    · subst hpq
      simp [h]
    · simp [h, hpq]
  · simp [h, hasPath_addWatcher]

/-- Helper: registering an already-watched path is the identity on the state. -/
theorem ensurePath_of_hasPath (s : WatchState) (p : String)
    (h : s.hasPath p = true) : s.ensurePath p = s := by
  simp [WatchState.ensurePath, h]

/-- Helper: `ensurePath` never closes a handle. -/
theorem ensurePath_closed (s : WatchState) (p : String) :
    (s.ensurePath p).closedHandles = s.closedHandles := by
  unfold WatchState.ensurePath WatchState.addWatcher
  split <;> rfl

/-- Helper: `ensurePath` does not touch the stopped flag. -/
theorem ensurePath_stopped (s : WatchState) (p : String) :
    (s.ensurePath p).stopped = s.stopped := by
  unfold WatchState.ensurePath WatchState.addWatcher
  split <;> rfl

/-- Helper: `ensurePath` keeps all existing entries, in order, at the front. -/
theorem ensurePath_watchers_extends (s : WatchState) (p : String) :
    ∃ t, (s.ensurePath p).watchers = s.watchers ++ t := by
  unfold WatchState.ensurePath WatchState.addWatcher
  split
  · exact ⟨[], by simp⟩
  · exact ⟨[(p, s.nextHandle)], rfl⟩

/-- Helper: `ensurePath` preserves key uniqueness of the watcher map. -/
theorem ensurePath_keys_nodup (s : WatchState) (p : String)
    (h : (s.watchers.map Prod.fst).Nodup) :
    ((s.ensurePath p).watchers.map Prod.fst).Nodup := by
  unfold WatchState.ensurePath
  split
  · exact h
  · rename_i hnot
    have hp : p ∉ s.watchers.map Prod.fst := by
      intro hmem
      apply hnot
      obtain ⟨e, he, heq⟩ := List.mem_map.mp hmem
      simp only [WatchState.hasPath, List.any_eq_true]
      exact ⟨e, he, by simp [heq]⟩
    simp only [WatchState.addWatcher, List.map_append, List.map_cons, List.map_nil]
    rw [List.nodup_append]
    exact ⟨h, List.nodup_singleton p, by
      intro a ha hb
      simp only [List.mem_singleton] at hb
      subst hb
      exact hp ha⟩

/-- Helper: `ensurePaths` only extends the present-path set by its list. -/
theorem hasPath_ensurePaths (ps : List String) :
    ∀ (s : WatchState) (q : String),
      (ensurePaths s ps).hasPath q = (s.hasPath q || decide (q ∈ ps)) := by
  induction ps with
  | nil => intro s q; simp [ensurePaths]
  | cons a as ih =>
    intro s q
    have hstep : ensurePaths s (a :: as) = ensurePaths (s.ensurePath a) as := rfl
    have hdec : decide (q ∈ a :: as) = (decide (a = q) || decide (q ∈ as)) := by
      by_cases h1 : a = q <;> by_cases h2 : q ∈ as <;>
        simp_all [List.mem_cons, eq_comm]
    rw [hstep, ih, hasPath_ensurePath, hdec, Bool.or_assoc]

/-- Helper: `ensurePaths` over a list of already-present paths is the
identity. -/
theorem ensurePaths_of_all_present (ps : List String) :
    ∀ s : WatchState, (∀ p ∈ ps, s.hasPath p = true) → ensurePaths s ps = s := by
  induction ps with
  | nil => intro s _; rfl
  | cons a as ih =>
    intro s h
    have hstep : ensurePaths s (a :: as) = ensurePaths (s.ensurePath a) as := rfl
    rw [hstep, ensurePath_of_hasPath s a (h a (by simp))]
    exact ih s fun p hp => h p (by simp [hp])

/-- Helper: `ensurePaths` never closes a handle. -/
theorem ensurePaths_closed (ps : List String) :
    ∀ s : WatchState, (ensurePaths s ps).closedHandles = s.closedHandles := by
  induction ps with
  | nil => intro s; rfl
  | cons a as ih =>
    intro s
    have hstep : ensurePaths s (a :: as) = ensurePaths (s.ensurePath a) as := rfl
    rw [hstep, ih, ensurePath_closed]

/-- Helper: `ensurePaths` does not touch the stopped flag. -/
theorem ensurePaths_stopped (ps : List String) :
    ∀ s : WatchState, (ensurePaths s ps).stopped = s.stopped := by
  induction ps with
  | nil => intro s; rfl
  | cons a as ih =>
    intro s
    have hstep : ensurePaths s (a :: as) = ensurePaths (s.ensurePath a) as := rfl
    rw [hstep, ih, ensurePath_stopped]

/-- Helper: `ensurePaths` keeps all existing entries, in order, at the
front. -/
theorem ensurePaths_watchers_extends (ps : List String) :
    ∀ s : WatchState, ∃ t, (ensurePaths s ps).watchers = s.watchers ++ t := by
  induction ps with
  | nil => intro s; exact ⟨[], by simp [ensurePaths]⟩
  | cons a as ih =>
    intro s
    have hstep : ensurePaths s (a :: as) = ensurePaths (s.ensurePath a) as := rfl
    obtain ⟨t1, ht1⟩ := ensurePath_watchers_extends s a
    obtain ⟨t2, ht2⟩ := ih (s.ensurePath a)
    exact ⟨t1 ++ t2, by rw [hstep, ht2, ht1, List.append_assoc]⟩

/-- Helper: `ensurePaths` preserves key uniqueness of the watcher map. -/
theorem ensurePaths_keys_nodup (ps : List String) :
    ∀ s : WatchState, (s.watchers.map Prod.fst).Nodup →
      ((ensurePaths s ps).watchers.map Prod.fst).Nodup := by
  induction ps with
  | nil => intro s h; exact h
  | cons a as ih =>
    intro s h
    have hstep : ensurePaths s (a :: as) = ensurePaths (s.ensurePath a) as := rfl
    rw [hstep]
    exact ih (s.ensurePath a) (ensurePath_keys_nodup s a h)

/-- Helper: `watchConfigFile` does not touch the stopped flag. -/
theorem watchConfigFile_stopped (path : String) (cfg : Option ParsedCommandLine)
    (s : WatchState) : (watchConfigFile path cfg s).stopped = s.stopped := by
  cases cfg with
  | none => exact ensurePath_stopped s path
  | some c =>
    show (watchInputFiles c (watchWildCardDirectories c (s.ensurePath path))).stopped = _
    rw [watchInputFiles, ensurePaths_stopped, watchWildCardDirectories,
      ensurePaths_stopped, ensurePath_stopped]

/-- Helper: `watchConfigFile` never closes a handle. -/
theorem watchConfigFile_closed (path : String) (cfg : Option ParsedCommandLine)
    (s : WatchState) : (watchConfigFile path cfg s).closedHandles = s.closedHandles := by
  cases cfg with
  | none => exact ensurePath_closed s path
  | some c =>
    show (watchInputFiles c (watchWildCardDirectories c (s.ensurePath path))).closedHandles = _
    rw [watchInputFiles, ensurePaths_closed, watchWildCardDirectories,
      ensurePaths_closed, ensurePath_closed]

/-- C5 counterexample: calling `watchConfigFile` on a freshly stopped watch
manager does create a new active watch handle (for the config path), because
`watchConfigFile` never consults `#stopped` — refuting the claim's assertion
that registrations after `stop()` create no new active handle. -/
theorem C5_counterexample :
    (watchConfigFile "tsconfig.json" none (stopWatch initialWatch)).watchers ≠ [] := by
  decide

/-- C5 (amended): `stop()` closes and removes every active watch handle, and a
second `stop()` is a no-op; but a registration attempt after `stop()` is *not*
rejected — `watchConfigFile` on a stopped manager still creates new active
watch handles as usual; only the rebuild callback is suppressed
(`#performBuild` returns immediately while `#stopped` is set), so post-stop
registrations never trigger a rebuild. -/
theorem C5_stop_closes_all_and_suppresses_builds (s : WatchState) :
    (stopWatch s).watchers = []
    ∧ (stopWatch s).closedHandles = s.closedHandles ++ s.watchers.map Prod.snd
    ∧ stopWatch (stopWatch s) = stopWatch s
    ∧ (∀ (path : String) (cfg : Option ParsedCommandLine),
        (watchConfigFile path cfg (stopWatch s)).stopped = true
          ∧ performBuildFires (watchConfigFile path cfg (stopWatch s)) = false)
    ∧ (∀ path : String,
        (watchConfigFile path none (stopWatch s)).watchers = [(path, s.nextHandle)]) := by
  refine ⟨rfl, rfl, by simp [stopWatch], ?_, ?_⟩
  · intro path cfg
    have h : (watchConfigFile path cfg (stopWatch s)).stopped = true := by
      rw [watchConfigFile_stopped]
      rfl
    exact ⟨h, by simp [performBuildFires, h]⟩
  · intro path
    show ((stopWatch s).ensurePath path).watchers = _
    simp [stopWatch, WatchState.ensurePath, WatchState.hasPath, WatchState.addWatcher]

/-- C6: the watcher map holds at most one active handle per distinct path
(key uniqueness is preserved by registration), and `watchConfigFile` is
idempotent for an unchanged configuration: a second call with the same path
and parse result leaves the state exactly as after the first call — same set
of active watch paths, no duplicate handles, no handle closed or reopened
(existing entries survive verbatim and the closed-handle record is
untouched). -/
theorem C6_registration_idempotent (path : String) (cfg : Option ParsedCommandLine)
    (s : WatchState) (hnd : (s.watchers.map Prod.fst).Nodup) :
    ((watchConfigFile path cfg s).watchers.map Prod.fst).Nodup
    ∧ watchConfigFile path cfg (watchConfigFile path cfg s) = watchConfigFile path cfg s
    ∧ (watchConfigFile path cfg s).closedHandles = s.closedHandles
    ∧ ∃ t, (watchConfigFile path cfg s).watchers = s.watchers ++ t := by
  cases cfg with
  | none =>
    refine ⟨ensurePath_keys_nodup s path hnd, ?_, ensurePath_closed s path,
      ensurePath_watchers_extends s path⟩
    show (s.ensurePath path).ensurePath path = s.ensurePath path
    refine ensurePath_of_hasPath _ _ ?_
    rw [hasPath_ensurePath]
    simp
  | some c =>
    have hshape : watchConfigFile path (some c) s
        = ensurePaths (ensurePaths (s.ensurePath path)
            (c.wildcardDirectories.map WildcardDirectory.path)) c.fileNames := rfl
    have hhas : ∀ q : String,
        (watchConfigFile path (some c) s).hasPath q
          = (((s.hasPath q || decide (path = q))
              || decide (q ∈ c.wildcardDirectories.map WildcardDirectory.path))
              || decide (q ∈ c.fileNames)) := by
      intro q
      rw [hshape, hasPath_ensurePaths, hasPath_ensurePaths, hasPath_ensurePath]
    refine ⟨?_, ?_, ?_, ?_⟩
    · rw [hshape]
      exact ensurePaths_keys_nodup _ _ (ensurePaths_keys_nodup _ _
        (ensurePath_keys_nodup s path hnd))
    · show ((watchConfigFile path (some c) s).ensurePath path
          |> watchInputFiles c ∘ watchWildCardDirectories c)
        = watchConfigFile path (some c) s
      have h1 : (watchConfigFile path (some c) s).ensurePath path
          = watchConfigFile path (some c) s := by
        refine ensurePath_of_hasPath _ _ ?_
        rw [hhas]
        simp
      have h2 : watchWildCardDirectories c (watchConfigFile path (some c) s)
          = watchConfigFile path (some c) s := by
        refine ensurePaths_of_all_present _ _ ?_
        intro p hp
        rw [hhas]
        simp [hp]
      have h3 : watchInputFiles c (watchConfigFile path (some c) s)
          = watchConfigFile path (some c) s := by
        refine ensurePaths_of_all_present _ _ ?_
        intro p hp
        rw [hhas]
        simp [hp]
      simp only [Function.comp_apply, h1, h2, h3]
    · exact watchConfigFile_closed path (some c) s
    · rw [hshape]
      obtain ⟨t1, ht1⟩ := ensurePath_watchers_extends s path
      obtain ⟨t2, ht2⟩ := ensurePaths_watchers_extends
        (c.wildcardDirectories.map WildcardDirectory.path) (s.ensurePath path)
      obtain ⟨t3, ht3⟩ := ensurePaths_watchers_extends c.fileNames
        (ensurePaths (s.ensurePath path) (c.wildcardDirectories.map WildcardDirectory.path))
      exact ⟨(t1 ++ t2) ++ t3, by rw [ht3, ht2, ht1]; simp [List.append_assoc]⟩

/-- Witness for C6: instantiated on the empty watch state and the config path
`tsconfig.json` with a failed parse. -/
theorem C6_registration_idempotent_witness :
    ((watchConfigFile "tsconfig.json" none initialWatch).watchers.map Prod.fst).Nodup
    ∧ watchConfigFile "tsconfig.json" none (watchConfigFile "tsconfig.json" none initialWatch)
        = watchConfigFile "tsconfig.json" none initialWatch
    ∧ (watchConfigFile "tsconfig.json" none initialWatch).closedHandles
        = initialWatch.closedHandles
    ∧ ∃ t, (watchConfigFile "tsconfig.json" none initialWatch).watchers
        = initialWatch.watchers ++ t :=
  C6_registration_idempotent "tsconfig.json" none initialWatch (by decide)

/-- C7: the wildcard-directory change callback invokes the rebuild exactly as
claimed: a notification naming the watched directory itself always triggers;
one naming a file triggers iff the file's extension is a recognized source
extension (`.ts`/`.tsx` always, plus `.js`/`.jsx` under `allowJs`, plus
`.json` under `resolveJsonModule`) and the file is not classified as a
compiler output path (per `isOutputFile`, derived from `outFile ?? out`,
`declarationDir`, and `outDir`). -/
theorem C7_wildcard_callback_policy (dirPath fileName : String)
    (cfg : ParsedCommandLine) :
    (fileName = dirPath → wildcardCallbackInvokesBuild dirPath fileName cfg = true)
    ∧ (fileName ≠ dirPath →
        (wildcardCallbackInvokesBuild dirPath fileName cfg = true
          ↔ (extname fileName ∈ (TS_SOURCE_EXTENSIONS
                ++ (if cfg.options.allowJs then [".js", ".jsx"] else [])
                ++ (if cfg.options.resolveJsonModule then [".json"] else []))
             ∧ isOutputFile fileName cfg = false))) := by
  constructor
  · intro h
    simp [wildcardCallbackInvokesBuild, h]
  · intro h
    have hcb : wildcardCallbackInvokesBuild dirPath fileName cfg
        = (isSupportedSourceFile fileName cfg && !isOutputFile fileName cfg) := by
      cases hs : isSupportedSourceFile fileName cfg <;>
        cases ho : isOutputFile fileName cfg <;>
        simp [wildcardCallbackInvokesBuild, h, hs, ho]
    have hsup : isSupportedSourceFile fileName cfg = true
        ↔ extname fileName ∈ (TS_SOURCE_EXTENSIONS
            ++ (if cfg.options.allowJs then [".js", ".jsx"] else [])
            ++ (if cfg.options.resolveJsonModule then [".json"] else [])) := by
      simp [isSupportedSourceFile, List.contains, List.elem_iff]
    rw [hcb]
    simp [Bool.and_eq_true, Bool.not_eq_true', hsup]

/-- A sample configuration used to witness C7. -/
def sampleWatchConfig : ParsedCommandLine :=
  { options :=
      { allowJs := false, resolveJsonModule := false, noEmit := false,
        outFile := none, out := none, outDir := some "dist", declarationDir := none }
    fileNames := []
    wildcardDirectories := [{ path := "src", recursive := true }] }

/-- Witness for C7: a notification for the directory itself triggers; a `.ts`
file under the watched directory that is not an output path triggers. -/
theorem C7_wildcard_callback_policy_witness :
    wildcardCallbackInvokesBuild "src" "src" sampleWatchConfig = true
    ∧ wildcardCallbackInvokesBuild "src" "src/index.ts" sampleWatchConfig = true := by
  refine ⟨(C7_wildcard_callback_policy "src" "src" sampleWatchConfig).1 rfl, ?_⟩
  exact ((C7_wildcard_callback_policy "src" "src/index.ts" sampleWatchConfig).2
    (by decide)).mpr ⟨by decide, by decide⟩

/-- C8: in watch mode, for every invalidated project and every outcome of
completing it — a normal return with any exit status (including one whose
classification throws the unsupported-status error) or a synchronous throw
from `done` itself — the watch set is refreshed for that project's
configuration path and `AfterProject` is emitted last, because both actions
sit in the `finally` block around the unit's completion. -/
theorem C8_finally_always_refreshes_and_emits (project : String) (d : DoneResult) :
    (projectStep true project d).watchRefreshes = [project]
    ∧ (projectStep true project d).events.getLast?
        = some (BuildEventOcc.afterProject project) := by
  cases d with
  | threw m => exact ⟨rfl, rfl⟩
  | status s =>
    cases h : classifyExitStatus s with
    | ok o =>
      cases o <;> simp [projectStep, h]
    | error m =>
      simp [projectStep, h]

/-- C10: constructing a watch manager over a host system lacking
`watchDirectory` or `watchFile` throws synchronously with the documented
message, so no watch-manager instance ever exists whose system lacks either
capability. -/
theorem C10_constructor_requires_watch_support (sys : TSSystem)
    (h : sys.watchDirectorySupported = false ∨ sys.watchFileSupported = false) :
    createWatch sys
        = Except.error
            "Unable to create Watch: system does not support watchDirectory and/or watchFile"
    ∧ ∀ st : WatchState, createWatch sys ≠ Except.ok st := by
  have hcond : (!sys.watchDirectorySupported || !sys.watchFileSupported) = true := by
    rcases h with h | h <;> simp [h]
  exact ⟨by simp [createWatch, hcond], fun st => by simp [createWatch, hcond]⟩

/-- Witness for C10: a system supporting `watchFile` but not `watchDirectory`
cannot be used to construct a watch manager. -/
theorem C10_constructor_requires_watch_support_witness :
    createWatch { watchFileSupported := true, watchDirectorySupported := false }
        = Except.error
            "Unable to create Watch: system does not support watchDirectory and/or watchFile"
    ∧ ∀ st : WatchState,
        createWatch { watchFileSupported := true, watchDirectorySupported := false }
          ≠ Except.ok st :=
  C10_constructor_requires_watch_support
    { watchFileSupported := true, watchDirectorySupported := false } (Or.inl rfl)

/-- C3 (code bug): the dispatcher's reduce step appends each recursively
rewritten element's wrapper array as a single element (`[...acc, newNode]`,
missing the spread), so nested sequences are *not* flattened into one flat
sequence and a net result of exactly one node is *not* collapsed back to a
bare node: a pass splicing two leaves in place of the root yields the nested
array `[[node 1], [node 2]]` instead of the flat `[node 1, node 2]`, and an
identity pass at a leaf yields the one-element array `[leaf]` instead of the
bare leaf — contradicting the method's own declared `ts.VisitResult<T>` return
type, which admits only a node, a flat node array, or undefined. -/
theorem C3_dispatcher_does_not_flatten :
    visitDispatch spliceTwoVisit 2 (JS.node 0 [])
        = JS.arr [JS.arr [JS.node 1 []], JS.arr [JS.node 2 []]]
      ∧ visitDispatch spliceTwoVisit 2 (JS.node 0 [])
          ≠ JS.arr [JS.node 1 [], JS.node 2 []]
      ∧ visitDispatch (fun v => v) 2 (JS.node 3 []) = JS.arr [JS.node 3 []]
      ∧ visitDispatch (fun v => v) 2 (JS.node 3 []) ≠ JS.node 3 [] := by
  refine ⟨rfl, ?_, rfl, ?_⟩ <;>
    simp [visitDispatch, spliceTwoVisit, visitEachChild, JS.splice,
      JS.isUndef, JS.isArr]

end TscTransformKit
